import Mathlib

/-!
Verification of the multi-thumb slider engine (`useSlider.ts`).

The engine is embedded shallowly: the reactive Vue state (`props`,
`trackRef`, the thumb registry, the field value, the touched flag and the
validity-update side effect) is collected in an explicit `SliderState`
record, and each handler of the source becomes a state-passing function.
JavaScript numbers are modelled as rationals (`ℚ`); `undefined` is
modelled with `Option`.
-/

namespace Formwerk

/-- Slider orientation, as in the source's `Orientation` type. -/
inductive Orientation where
  | horizontal
  | vertical
deriving DecidableEq, Repr

/-- Inline direction, as in the source's `Direction` type. -/
inductive Direction where
  | ltr
  | rtl
deriving DecidableEq, Repr

/-- A page coordinate, as in the source's `Coordinate` type. -/
structure Coordinate where
  x : ℚ
  y : ℚ
deriving DecidableEq, Repr

/-- The track's bounding client rect (the fields `getBoundingClientRect`
supplies that the source reads). -/
structure Rect where
  left : ℚ
  top : ℚ
  width : ℚ
  height : ℚ
deriving DecidableEq, Repr

/-- The field value owned by the form field: a scalar number, an array of
numbers possibly containing `undefined` holes, or `undefined` itself. -/
inductive FieldValue where
  | scalar (v : ℚ)
  | arr (vs : List (Option ℚ))
  | undef
deriving DecidableEq, Repr

/-- The slider's configured props (`SliderProps`); `none` stands for an
unset (`undefined`) prop. -/
structure SliderProps where
  orientation : Option Orientation
  dir : Option Direction
  min : Option ℚ
  max : Option ℚ
  step : Option ℚ
  disabled : Option Bool
  readonly : Option Bool
deriving DecidableEq, Repr

/-- The reactive state the `useSlider` closure reads and writes: the
props, the measured track (the presence of `trackRef.value` is identified
with its bounding rect being available), the thumb registry (list of
thumb ids, in registration order), the field value, the touched flag, and
a counter of `updateValidity` calls standing for the validation
side effect. -/
structure SliderState where
  props : SliderProps
  trackRect : Option Rect
  thumbs : List String
  fieldValue : FieldValue
  touched : Bool
  validityUpdates : Nat
deriving DecidableEq, Repr

/-- JavaScript `a || d` for an optional number: `undefined` (and `NaN`,
also modelled by `none`) and `0` are falsy and yield the default. -/
def jsOr (o : Option ℚ) (d : ℚ) : ℚ :=
  match o with
  | none => d
  | some v => if v = 0 then d else v

/-- `isDisabled`: `toValue(props.disabled) ?? false`. -/
def isDisabled (s : SliderState) : Bool :=
  s.props.disabled.getD false

/-- `isReadonly`: `toValue(props.readonly) ?? false`. -/
def isReadonly (s : SliderState) : Bool :=
  s.props.readonly.getD false

/-- `isMutable`: `!isDisabled() && !isReadonly()`. -/
def isMutable (s : SliderState) : Bool :=
  !isDisabled s && !isReadonly s

/-- Modelled from the spec: the utility `isNullOrUndefined` (from
`utils/common`, not under `src/`) — true exactly on `null`/`undefined`,
here the `none` of an optional number. -/
def isNullOrUndefined (o : Option ℚ) : Bool :=
  o.isNone

/-- Modelled from the spec: the utility `normalizeArrayable` (from
`utils/common`, not under `src/`) — §4.5 "reads the current array value":
an array is taken as is, and a non-array value (a scalar, or `undefined`)
is wrapped into a one-element array. -/
def normalizeArrayable (fv : FieldValue) : List (Option ℚ) :=
  match fv with
  | .arr vs => vs
  | .scalar v => [some v]
  | .undef => [none]

/-- Modelled from the spec: §4.1 ties "round half away from zero" —
rounds a rational to the nearest integer, halves going away from zero. -/
def roundHalfAwayFromZero (q : ℚ) : ℤ :=
  if 0 ≤ q then ⌊q + 1 / 2⌋ else -⌊-q + 1 / 2⌋

/-- Modelled from the spec: the Quantizer `toNearestMultipleOf` (from
`utils/math`, not under `src/`) — §4.1 "snaps `value` to the nearest
multiple of `step`". -/
def toNearestMultipleOf (value step : ℚ) : ℚ :=
  (roundHalfAwayFromZero (value / step) : ℚ) * step

/-- JavaScript `Array.prototype.indexOf`: index of the first occurrence,
`-1` when absent. -/
def jsIndexOf : List String → String → ℤ
  | [], _ => -1
  | a :: rest, x =>
    if a = x then 0
    else
      let r := jsIndexOf rest x
      if r = -1 then -1 else r + 1

/-- JavaScript array index assignment `l[idx] = v`: in range it replaces
the element; past the end it extends the array with `undefined` holes so
that the value lands exactly at `idx`. -/
def jsSetIdx (l : List (Option ℚ)) (idx : ℕ) (v : ℚ) : List (Option ℚ) :=
  if idx < l.length then l.set idx (some v)
  else l ++ List.replicate (idx - l.length) none ++ [some v]

/-- `getThumbValue(idx)` from the source: an array field indexes into the
array (out-of-range, negative included, gives `undefined`); a scalar
field answers only index `0`; an `undefined` field gives `undefined`. -/
def getThumbValue (fv : FieldValue) (idx : ℤ) : Option ℚ :=
  match fv with
  | .arr vs => if idx < 0 then none else vs.getD idx.toNat none
  | .scalar v => if idx = 0 then some v else none
  | .undef => none

/-- `setThumbValue(idx, value)` from the source: a no-op unless mutable;
with at most one registered thumb the scalar field value is replaced;
otherwise the field value is normalized to an array, `null`/`undefined`
entries are filtered out, the element at `idx` is assigned, and the array
is written back; both write paths call `updateValidity`. -/
def setThumbValue (s : SliderState) (idx : ℕ) (value : ℚ) : SliderState :=
  if !isMutable s then s
  else if s.thumbs.length ≤ 1 then
    { s with fieldValue := .scalar value, validityUpdates := s.validityUpdates + 1 }
  else
    let nextValue := (normalizeArrayable s.fieldValue).filter fun v => !isNullOrUndefined v
    { s with fieldValue := .arr (jsSetIdx nextValue idx value),
             validityUpdates := s.validityUpdates + 1 }

/-- The value range exposed per slider (`getSliderRange`). -/
structure ValueRange where
  min : ℚ
  max : ℚ
deriving DecidableEq, Repr

/-- `getSliderRange()`: `{ min: props.min || 0, max: props.max || 100 }`. -/
def getSliderRange (s : SliderState) : ValueRange :=
  { min := jsOr s.props.min 0, max := jsOr s.props.max 100 }

/-- `getSliderStep()`: `toValue(props.step) || 1`. -/
def getSliderStep (s : SliderState) : ℚ :=
  jsOr s.props.step 1

/-- The record `getThumbRange` returns: neighbor-constrained bounds plus
the slider's absolute bounds. -/
structure ThumbRange where
  min : ℚ
  max : ℚ
  absoluteMin : ℚ
  absoluteMax : ℚ
deriving DecidableEq, Repr

/-- The body of `getThumbRange` once the thumb's registry index is known:
`min` is the previous thumb's value (`??` falls back to the absolute
minimum), `max` the next thumb's value (falling back to the absolute
maximum). -/
def getThumbRangeIdx (s : SliderState) (idx : ℤ) : ThumbRange :=
  let range := getSliderRange s
  let nextThumb := getThumbValue s.fieldValue (idx + 1)
  let prevThumb := getThumbValue s.fieldValue (idx - 1)
  { min := prevThumb.getD range.min
    max := nextThumb.getD range.max
    absoluteMin := range.min
    absoluteMax := range.max }

/-- `getThumbRange(thumbCtx)` from the source: looks up the thumb's index
with `indexOf` and resolves the neighbor-constrained range. -/
def getThumbRange (s : SliderState) (thumbCtx : String) : ThumbRange :=
  getThumbRangeIdx s (jsIndexOf s.thumbs thumbCtx)

/-- `getValueForPagePosition(position)` from the source: `0` when the
track is unmeasured; otherwise the fractional position along the primary
axis, flipped once when the direction is `rtl` or the orientation is
vertical, mapped linearly onto the effective bounds and quantized by the
effective step. -/
def getValueForPagePosition (s : SliderState) (c : Coordinate) : ℚ :=
  match s.trackRect with
  | none => 0
  | some rect =>
    let orientation := s.props.orientation.getD .horizontal
    let percent :=
      if orientation = .horizontal then (c.x - rect.left) / rect.width
      else (c.y - rect.top) / rect.height
    let percent :=
      if s.props.dir = some .rtl ∨ orientation = .vertical then 1 - percent else percent
    let min := jsOr s.props.min 0
    let max := jsOr s.props.max 100
    let value := percent * (max - min) + min
    toNearestMultipleOf value (jsOr s.props.step 1)

/-- The reduce state of the track `onMousedown` handler: the running best
candidate's registry index and distance, `none` standing for the initial
`Infinity`. (The source also carries the candidate's registration object,
which is never read after the reduce and is not modelled.) -/
structure Candidate where
  idx : ℕ
  diff : Option ℚ
deriving DecidableEq, Repr

/-- `diff < candidate.diff` with `none` as `Infinity`. -/
def ltInf (d : ℚ) (c : Option ℚ) : Bool :=
  match c with
  | none => true
  | some c' => d < c'

/-- One step of the `reduce` in the track `onMousedown` handler, on the
pair (registry index, thumb id): thumbs whose range excludes the target
or whose current value is unset keep the running candidate; otherwise the
thumb replaces it exactly when its distance is strictly smaller. -/
def mousedownStep (s : SliderState) (target : ℚ) (cand : Candidate)
    (p : ℕ × String) : Candidate :=
  let r := getThumbRange s p.2
  if target < r.min ∨ target > r.max then cand
  else
    match getThumbValue s.fieldValue p.1 with
    | none => cand
    | some currentThumbValue =>
      let diff := |currentThumbValue - target|
      if ltInf diff cand.diff then { idx := p.1, diff := some diff } else cand

/-- The whole `reduce`: folds `mousedownStep` over the enumerated
registry, starting from index `0` with distance `Infinity`. -/
def pickClosest (s : SliderState) (target : ℚ) : Candidate :=
  s.thumbs.enum.foldl (mousedownStep s target) { idx := 0, diff := none }

/-- The track `onMousedown` handler: a no-op when the track is unmeasured
or the slider is not mutable; otherwise maps the pointer position to a
target value, picks the closest admissible thumb, commits the target to
it and marks the field touched. -/
def onMousedown (s : SliderState) (e : Coordinate) : SliderState :=
  if !s.trackRect.isSome || !isMutable s then s
  else
    let targetValue := getValueForPagePosition s e
    let closest := pickClosest s targetValue
    let s' := setThumbValue s closest.idx targetValue
    { s' with touched := true }

/-- A thumb index the `onMousedown` reduce retains as a candidate: it is
a registry position, the target lies inside its current range, and its
current value is set. -/
def qualifies (s : SliderState) (target : ℚ) (i : ℕ) : Prop :=
  i < s.thumbs.length ∧
  (getThumbRangeIdx s i).min ≤ target ∧
  target ≤ (getThumbRangeIdx s i).max ∧
  (getThumbValue s.fieldValue i).isSome

instance (s : SliderState) (target : ℚ) (i : ℕ) :
    Decidable (qualifies s target i) := by
  unfold qualifies; infer_instance

/-- The distance the reduce compares: absolute difference between the
thumb's current value and the target. -/
def thumbDist (s : SliderState) (target : ℚ) (i : ℕ) : ℚ :=
  |(getThumbValue s.fieldValue i).getD 0 - target|

/-- The `onMousedown` reduce step expressed directly on the thumb's
registry index: what `mousedownStep` computes once `indexOf` has resolved
the registration object to its index (see `mousedownStep_eq_idx`). -/
def mousedownStepIdx (s : SliderState) (target : ℚ) (cand : Candidate) (i : ℕ) : Candidate :=
  let r := getThumbRangeIdx s i
  if target < r.min ∨ target > r.max then cand
  else
    match getThumbValue s.fieldValue i with
    | none => cand
    | some currentThumbValue =>
      let diff := |currentThumbValue - target|
      if ltInf diff cand.diff then { idx := i, diff := some diff } else cand

theorem jsIndexOf_of_getElem? (l : List String) (i : ℕ) (x : String)
    (hnd : l.Nodup) (h : l[i]? = some x) : jsIndexOf l x = i := by
  induction l generalizing i with
  | nil => simp at h
  | cons a rest ih =>
    rcases List.nodup_cons.mp hnd with ⟨ha, hrest⟩
    cases i with
    | zero =>
      simp only [List.getElem?_cons_zero, Option.some.injEq] at h
      subst h
      unfold jsIndexOf
      simp
    | succ i =>
      simp only [List.getElem?_cons_succ] at h
      have hx : x ∈ rest := by
        obtain ⟨hlt, rfl⟩ := List.getElem?_eq_some.mp h
        exact List.getElem_mem hlt
      have hax : ¬ a = x := fun heq => ha (heq ▸ hx)
      have hr := ih i hrest h
      unfold jsIndexOf
      simp only [if_neg hax, hr]
      have hne : ¬ ((i : ℤ) = -1) := by omega
      simp only [if_neg hne]
      push_cast
      ring

theorem getThumbRange_get (s : SliderState) (hnd : s.thumbs.Nodup) (i : ℕ)
    (h : i < s.thumbs.length) :
    getThumbRange s (s.thumbs.get ⟨i, h⟩) = getThumbRangeIdx s i := by
  unfold getThumbRange
  rw [jsIndexOf_of_getElem? s.thumbs i _ hnd (by simp)]

theorem getThumbValue_neg (fv : FieldValue) (k : ℤ) (hk : k < 0) :
    getThumbValue fv k = none := by
  cases fv with
  | arr vs => simp [getThumbValue, hk]
  | scalar v =>
    have : ¬ (k = 0) := by omega
    simp [getThumbValue, this]
  | undef => rfl

theorem getThumbValue_arr_map (vs : List ℚ) (k : ℕ) :
    getThumbValue (.arr (vs.map some)) (k : ℤ) =
      if h : k < vs.length then some (vs.get ⟨k, h⟩) else none := by
  unfold getThumbValue
  have h0 : ¬ ((k : ℤ) < 0) := by omega
  simp only [if_neg h0, Int.toNat_natCast, List.getD_eq_getElem?_getD, List.getElem?_map]
  by_cases h : k < vs.length
  · rw [List.getElem?_eq_getElem h]
    simp [h]
  · rw [List.getElem?_eq_none (by omega)]
    simp [h]

theorem filter_isSome_eq (vs : List (Option ℚ)) :
    vs.filter (fun v => !isNullOrUndefined v) = (vs.filterMap id).map some := by
  induction vs with
  | nil => rfl
  | cons a rest ih =>
    cases a with
    | none => simpa [isNullOrUndefined] using ih
    | some v => simpa [isNullOrUndefined] using ih

theorem jsSetIdx_length (l : List (Option ℚ)) (idx : ℕ) (v : ℚ) :
    (jsSetIdx l idx v).length = if idx < l.length then l.length else idx + 1 := by
  unfold jsSetIdx
  by_cases h : idx < l.length
  · simp [h]
  · simp [h]
    omega

theorem jsSetIdx_getElem?_self (l : List (Option ℚ)) (idx : ℕ) (v : ℚ) :
    (jsSetIdx l idx v)[idx]? = some (some v) := by
  unfold jsSetIdx
  split
  · exact List.getElem?_set_self ‹_›
  · have hlen : (l ++ List.replicate (idx - l.length) none).length = idx := by
      simp
      omega
    rw [List.getElem?_append_right (le_of_eq hlen)]
    simp [hlen]

theorem jsSetIdx_getElem?_ne (l : List (Option ℚ)) (idx : ℕ) (v : ℚ) (j : ℕ)
    (hj : j ≠ idx) (w : Option ℚ) (h : l[j]? = some w) :
    (jsSetIdx l idx v)[j]? = some w := by
  have hjl : j < l.length := (List.getElem?_eq_some.mp h).1
  unfold jsSetIdx
  split
  · rw [List.getElem?_set_ne (fun heq => hj heq.symm)]
    exact h
  · have h1 : j < (l ++ List.replicate (idx - l.length) none).length := by
      simp
      omega
    rw [List.getElem?_append, if_pos h1, List.getElem?_append, if_pos hjl]
    exact h

theorem jsSetIdx_getElem?_gap (l : List (Option ℚ)) (idx : ℕ) (v : ℚ) (j : ℕ)
    (hj : j ≠ idx) (hge : l.length ≤ j) (hlt : j < (jsSetIdx l idx v).length) :
    (jsSetIdx l idx v)[j]? = some none := by
  rw [jsSetIdx_length] at hlt
  unfold jsSetIdx
  split
  · rename_i hidx
    rw [if_pos hidx] at hlt
    omega
  · rename_i hidx
    rw [if_neg hidx] at hlt
    have hjidx : j < idx := by omega
    have h1 : j < (l ++ List.replicate (idx - l.length) none).length := by
      simp
      omega
    rw [List.getElem?_append, if_pos h1, List.getElem?_append, if_neg (by omega),
      List.getElem?_replicate, if_pos (by omega)]

/-- The end-to-end scenario slider of the spec: bounds `{0, 10}`, step
`1`, a measured 10-wide track at the origin, two thumbs at `[2, 8]`. -/
def sliderTwoThumbs : SliderState :=
  { props := { orientation := none, dir := none, min := some 0, max := some 10,
               step := some 1, disabled := none, readonly := none }
    trackRect := some { left := 0, top := 0, width := 10, height := 1 }
    thumbs := ["a", "b"]
    fieldValue := .arr [some 2, some 8]
    touched := false
    validityUpdates := 0 }

/-- A single-thumb slider with an unset field value. -/
def sliderOneThumb : SliderState :=
  { props := { orientation := none, dir := none, min := none, max := none,
               step := none, disabled := none, readonly := none }
    trackRect := none
    thumbs := ["a"]
    fieldValue := .undef
    touched := false
    validityUpdates := 0 }

/-- A disabled (hence non-mutable) slider. -/
def sliderDisabled : SliderState :=
  { props := { orientation := none, dir := none, min := some 0, max := some 10,
               step := some 1, disabled := some true, readonly := none }
    trackRect := some { left := 0, top := 0, width := 10, height := 1 }
    thumbs := ["a", "b"]
    fieldValue := .arr [some 2, some 8]
    touched := false
    validityUpdates := 0 }

/-- A slider whose track element is not yet mounted/measured. -/
def sliderUnmounted : SliderState :=
  { props := { orientation := none, dir := none, min := some 0, max := some 10,
               step := some 1, disabled := none, readonly := none }
    trackRect := none
    thumbs := ["a"]
    fieldValue := .scalar 5
    touched := false
    validityUpdates := 0 }

/-- A slider configured with a negative step. -/
def sliderNegStep : SliderState :=
  { props := { orientation := none, dir := none, min := some 0, max := some 10,
               step := some (-2), disabled := none, readonly := none }
    trackRect := some { left := 0, top := 0, width := 10, height := 1 }
    thumbs := ["a"]
    fieldValue := .scalar 0
    touched := false
    validityUpdates := 0 }

/-- A slider whose step is configured as `0`. -/
def sliderZeroStep : SliderState :=
  { props := { orientation := none, dir := none, min := some 0, max := some 10,
               step := some 0, disabled := none, readonly := none }
    trackRect := some { left := 0, top := 0, width := 10, height := 1 }
    thumbs := ["a"]
    fieldValue := .scalar 0
    touched := false
    validityUpdates := 0 }

/-- A two-thumb slider whose (sorted) values lie below the default
`[0, 100]` bounds. -/
def sliderNegValues : SliderState :=
  { props := { orientation := none, dir := none, min := none, max := none,
               step := none, disabled := none, readonly := none }
    trackRect := none
    thumbs := ["a", "b"]
    fieldValue := .arr [some (-5), some (-3)]
    touched := false
    validityUpdates := 0 }

/-- A three-thumb slider whose array value has a gap (an unset middle
entry). -/
def sliderGapValues : SliderState :=
  { props := { orientation := none, dir := none, min := some 0, max := some 10,
               step := some 1, disabled := none, readonly := none }
    trackRect := some { left := 0, top := 0, width := 10, height := 1 }
    thumbs := ["a", "b", "c"]
    fieldValue := .arr [some 1, none, some 6]
    touched := false
    validityUpdates := 0 }

/-- C10: whenever no track geometry is available (the track element is
not yet mounted/measured), `getValueForPagePosition` returns `0` for any
coordinate instead of raising an error. -/
theorem unmeasured_track_maps_to_zero (s : SliderState) (c : Coordinate)
    (h : s.trackRect = none) : getValueForPagePosition s c = 0 := by
  unfold getValueForPagePosition
  rw [h]

theorem unmeasured_track_maps_to_zero_witness :
    sliderUnmounted.trackRect = none ∧
    getValueForPagePosition sliderUnmounted { x := 37, y := -4 } = 0 :=
  ⟨rfl, unmeasured_track_maps_to_zero sliderUnmounted { x := 37, y := -4 } rfl⟩

/-- C9: when the slider is not mutable (disabled or readonly),
`setThumbValue` and the track `onMousedown` handler are silent no-ops:
the whole state — field value and touched flag included — is unchanged. -/
theorem immutable_commit_and_click_noop (s : SliderState) (e : Coordinate)
    (idx : ℕ) (v : ℚ) (hm : isMutable s = false) :
    setThumbValue s idx v = s ∧ onMousedown s e = s := by
  constructor
  · unfold setThumbValue
    rw [hm]
    simp
  · unfold onMousedown
    rw [hm]
    simp

theorem immutable_commit_and_click_noop_witness :
    isMutable sliderDisabled = false ∧
    setThumbValue sliderDisabled 0 7 = sliderDisabled ∧
    onMousedown sliderDisabled { x := 3, y := 0 } = sliderDisabled :=
  ⟨rfl, (immutable_commit_and_click_noop sliderDisabled { x := 3, y := 0 } 0 7 rfl).1,
    (immutable_commit_and_click_noop sliderDisabled { x := 3, y := 0 } 0 7 rfl).2⟩

/-- C8: on a mutable slider whose registry holds at most one thumb,
`setThumbValue(0, x)` writes the scalar `x` itself as the field value
(and re-checks validity), never the one-element array `[x]`. -/
theorem single_thumb_commit_scalar (s : SliderState) (x : ℚ)
    (hm : isMutable s = true) (h1 : s.thumbs.length ≤ 1) :
    setThumbValue s 0 x =
      { s with fieldValue := .scalar x, validityUpdates := s.validityUpdates + 1 } ∧
    (setThumbValue s 0 x).fieldValue ≠ .arr [some x] := by
  have heq : setThumbValue s 0 x =
      { s with fieldValue := .scalar x, validityUpdates := s.validityUpdates + 1 } := by
    unfold setThumbValue
    rw [hm]
    simp [h1]
  refine ⟨heq, ?_⟩
  rw [heq]
  simp

theorem single_thumb_commit_scalar_witness :
    setThumbValue sliderOneThumb 0 5 =
      { sliderOneThumb with fieldValue := .scalar 5, validityUpdates := 1 } ∧
    (setThumbValue sliderOneThumb 0 5).fieldValue ≠ .arr [some 5] :=
  single_thumb_commit_scalar sliderOneThumb 5 rfl (by decide)

/-- C5 counterexample: the claim says an invalid, zero, **or negative**
configured step behaves as step `1`; but JavaScript `||` treats negative
numbers as truthy, so a configured step of `-2` is reported to thumbs
as `-2`, not `1`. -/
theorem negative_step_not_treated_as_one :
    sliderNegStep.props.step = some (-2) ∧ getSliderStep sliderNegStep ≠ 1 := by
  refine ⟨rfl, ?_⟩
  norm_num [getSliderStep, jsOr, sliderNegStep]

/-- C5 (amended): for a configured step that is unset/invalid (`NaN`,
modelled as `none`) or zero, the engine behaves as if the step were 1:
the step reported to thumbs is `1`, and position-to-value mapping
computes exactly what it computes with step `1`. (A negative step is
used as-is, not replaced by `1`.) -/
theorem invalid_or_zero_step_behaves_as_one (s : SliderState)
    (h : s.props.step = none ∨ s.props.step = some 0) :
    getSliderStep s = 1 ∧
    ∀ c, getValueForPagePosition s c =
      getValueForPagePosition { s with props := { s.props with step := some 1 } } c := by
  have hstep : jsOr s.props.step 1 = 1 := by
    rcases h with h | h <;> simp [jsOr, h]
  refine ⟨hstep, ?_⟩
  intro c
  unfold getValueForPagePosition
  cases htr : s.trackRect with
  | none => rfl
  | some rect => rcases h with h | h <;> simp [h, jsOr]

theorem invalid_or_zero_step_behaves_as_one_witness :
    getSliderStep sliderZeroStep = 1 ∧
    ∀ c, getValueForPagePosition sliderZeroStep c =
      getValueForPagePosition
        { sliderZeroStep with props := { sliderZeroStep.props with step := some 1 } } c :=
  invalid_or_zero_step_behaves_as_one sliderZeroStep (Or.inr rfl)

/-- C3: for a registered thumb at registry index `i`, the resolved range
has `min` equal to the value of the thumb at index `i - 1` (or the
slider's absolute minimum when there is no preceding thumb or its value
is unset), `max` equal to the value of the thumb at index `i + 1` (or
the absolute maximum), and carries the absolute bounds; every bound is
always resolved. -/
theorem getThumbRange_neighbor_bounds (s : SliderState) (hnd : s.thumbs.Nodup)
    (i : ℕ) (h : i < s.thumbs.length) :
    (getThumbRange s (s.thumbs.get ⟨i, h⟩)).min
        = (getThumbValue s.fieldValue ((i : ℤ) - 1)).getD (jsOr s.props.min 0) ∧
    (getThumbRange s (s.thumbs.get ⟨i, h⟩)).max
        = (getThumbValue s.fieldValue ((i : ℤ) + 1)).getD (jsOr s.props.max 100) ∧
    (getThumbRange s (s.thumbs.get ⟨i, h⟩)).absoluteMin = jsOr s.props.min 0 ∧
    (getThumbRange s (s.thumbs.get ⟨i, h⟩)).absoluteMax = jsOr s.props.max 100 := by
  rw [getThumbRange_get s hnd i h]
  simp [getThumbRangeIdx, getSliderRange]

theorem getThumbRange_neighbor_bounds_witness :
    (getThumbRange sliderTwoThumbs "b").min = 2 ∧
    (getThumbRange sliderTwoThumbs "b").max = 10 ∧
    (getThumbRange sliderTwoThumbs "b").absoluteMin = 0 ∧
    (getThumbRange sliderTwoThumbs "b").absoluteMax = 10 :=
  getThumbRange_neighbor_bounds sliderTwoThumbs (by decide) 1 (by decide)

/-- C7 counterexample: with default bounds `[0, 100]` and sorted thumb
values `[-5, -3]`, thumb 1's resolved range has `min = -5` (the neighbor
value), which lies below `absoluteMin = 0`: the claimed chain
`absoluteMin ≤ min` fails when values are allowed outside the absolute
bounds. -/
theorem thumbRange_containment_fails_out_of_bounds :
    (-5 : ℚ) ≤ -3 ∧
    ¬ ((getThumbRange sliderNegValues "b").absoluteMin ≤
        (getThumbRange sliderNegValues "b").min) := by
  have hidx : jsIndexOf sliderNegValues.thumbs "b" = 1 := by decide
  constructor
  · norm_num
  · unfold getThumbRange
    rw [hidx]
    norm_num [getThumbRangeIdx, getSliderRange, getThumbValue, jsOr, sliderNegValues,
      List.getD_eq_getElem?_getD]

/-- C7 (amended): for N registered thumbs whose values are sorted
(`v_0 ≤ ... ≤ v_{N-1}`) **and all lie within the effective absolute
bounds**, every registered thumb's resolved range satisfies
`absoluteMin ≤ min ≤ v_i ≤ max ≤ absoluteMax`. -/
theorem thumbRange_containment_within_bounds (s : SliderState) (hnd : s.thumbs.Nodup)
    (vs : List ℚ) (hv : s.fieldValue = .arr (vs.map some))
    (hlen : s.thumbs.length = vs.length)
    (hsorted : vs.Sorted (· ≤ ·))
    (hbounds : ∀ v ∈ vs, jsOr s.props.min 0 ≤ v ∧ v ≤ jsOr s.props.max 100)
    (i : ℕ) (h : i < s.thumbs.length) :
    (getThumbRange s (s.thumbs.get ⟨i, h⟩)).absoluteMin
        ≤ (getThumbRange s (s.thumbs.get ⟨i, h⟩)).min ∧
    (getThumbRange s (s.thumbs.get ⟨i, h⟩)).min ≤ vs.getD i 0 ∧
    vs.getD i 0 ≤ (getThumbRange s (s.thumbs.get ⟨i, h⟩)).max ∧
    (getThumbRange s (s.thumbs.get ⟨i, h⟩)).max
        ≤ (getThumbRange s (s.thumbs.get ⟨i, h⟩)).absoluteMax := by
  have hvi : i < vs.length := by omega
  have hgetD : vs.getD i 0 = vs.get ⟨i, hvi⟩ := by
    simp [List.getD_eq_getElem?_getD, List.getElem?_eq_getElem hvi]
  have hmem : vs.get ⟨i, hvi⟩ ∈ vs := by
    rw [List.get_eq_getElem]
    exact List.getElem_mem hvi
  have hmin : jsOr s.props.min 0 ≤
        (getThumbValue (FieldValue.arr (vs.map some)) ((i : ℤ) - 1)).getD (jsOr s.props.min 0) ∧
      (getThumbValue (FieldValue.arr (vs.map some)) ((i : ℤ) - 1)).getD (jsOr s.props.min 0)
        ≤ vs.get ⟨i, hvi⟩ := by
    rcases Nat.eq_zero_or_pos i with rfl | hipos
    · rw [getThumbValue_neg _ _ (by norm_num)]
      exact ⟨le_refl _, (hbounds _ hmem).1⟩
    · obtain ⟨j, rfl⟩ := Nat.exists_eq_succ_of_ne_zero (by omega : i ≠ 0)
      have hc : ((j + 1 : ℕ) : ℤ) - 1 = ((j : ℕ) : ℤ) := by push_cast; ring
      rw [hc, getThumbValue_arr_map]
      have hj : j < vs.length := by omega
      rw [dif_pos hj, Option.getD_some]
      have hjmem : vs.get ⟨j, hj⟩ ∈ vs := by
        rw [List.get_eq_getElem]
        exact List.getElem_mem hj
      refine ⟨(hbounds _ hjmem).1, ?_⟩
      exact hsorted.rel_get_of_lt (a := ⟨j, hj⟩) (b := ⟨j + 1, hvi⟩) (by simp)
  have hmax : vs.get ⟨i, hvi⟩ ≤
        (getThumbValue (FieldValue.arr (vs.map some)) ((i : ℤ) + 1)).getD (jsOr s.props.max 100) ∧
      (getThumbValue (FieldValue.arr (vs.map some)) ((i : ℤ) + 1)).getD (jsOr s.props.max 100)
        ≤ jsOr s.props.max 100 := by
    have hc : ((i : ℕ) : ℤ) + 1 = ((i + 1 : ℕ) : ℤ) := by push_cast; ring
    rw [hc, getThumbValue_arr_map]
    by_cases hnext : i + 1 < vs.length
    · rw [dif_pos hnext, Option.getD_some]
      have hnmem : vs.get ⟨i + 1, hnext⟩ ∈ vs := by
        rw [List.get_eq_getElem]
        exact List.getElem_mem hnext
      refine ⟨?_, (hbounds _ hnmem).2⟩
      exact hsorted.rel_get_of_lt (a := ⟨i, hvi⟩) (b := ⟨i + 1, hnext⟩) (by simp)
    · rw [dif_neg hnext, Option.getD_none]
      exact ⟨(hbounds _ hmem).2, le_refl _⟩
  rw [getThumbRange_get s hnd i h]
  simp only [getThumbRangeIdx, getSliderRange, hv, hgetD]
  exact ⟨hmin.1, hmin.2, hmax.1, hmax.2⟩

theorem thumbRange_containment_within_bounds_witness :
    (getThumbRange sliderTwoThumbs "a").absoluteMin
        ≤ (getThumbRange sliderTwoThumbs "a").min ∧
    (getThumbRange sliderTwoThumbs "a").min ≤ 2 ∧
    (2 : ℚ) ≤ (getThumbRange sliderTwoThumbs "a").max ∧
    (getThumbRange sliderTwoThumbs "a").max
        ≤ (getThumbRange sliderTwoThumbs "a").absoluteMax :=
  thumbRange_containment_within_bounds sliderTwoThumbs (by decide) [2, 8] rfl rfl
    (by norm_num [List.sorted_cons])
    (by
      intro v hv
      rcases List.mem_pair.mp hv with rfl | rfl <;>
        constructor <;> norm_num [jsOr, sliderTwoThumbs])
    0 (by decide)

/-- C2: on a mutable slider with at least two registered thumbs,
`setThumbValue(idx, x)` reads the current array value, drops its
unset (gap) entries, assigns `x` at position `idx` (extending with holes
if `idx` is past the end), leaves every other position of the gap-freed
array as it was, writes the array back as the field value, and bumps the
validity counter (the validation re-check). -/
theorem setThumbValue_multi_writes_array (s : SliderState) (idx : ℕ) (x : ℚ)
    (hm : isMutable s = true) (hn : 2 ≤ s.thumbs.length)
    (vs : List (Option ℚ)) (hv : s.fieldValue = .arr vs) :
    setThumbValue s idx x =
      { s with fieldValue := .arr (jsSetIdx ((vs.filterMap id).map some) idx x),
               validityUpdates := s.validityUpdates + 1 } ∧
    (jsSetIdx ((vs.filterMap id).map some) idx x)[idx]? = some (some x) ∧
    (∀ j w, j ≠ idx → (vs.filterMap id)[j]? = some w →
      (jsSetIdx ((vs.filterMap id).map some) idx x)[j]? = some (some w)) ∧
    (∀ j, j ≠ idx → (vs.filterMap id).length ≤ j →
      j < (jsSetIdx ((vs.filterMap id).map some) idx x).length →
      (jsSetIdx ((vs.filterMap id).map some) idx x)[j]? = some none) := by
  refine ⟨?_, jsSetIdx_getElem?_self _ _ _, ?_, ?_⟩
  · unfold setThumbValue
    rw [hm, hv]
    have h2 : ¬ (s.thumbs.length ≤ 1) := by omega
    simp [h2, normalizeArrayable, filter_isSome_eq]
  · intro j w hj hw
    apply jsSetIdx_getElem?_ne _ _ _ _ hj
    rw [List.getElem?_map, hw]
    rfl
  · intro j hj hge hlt
    exact jsSetIdx_getElem?_gap _ _ _ _ hj (by simpa using hge) hlt

theorem setThumbValue_multi_writes_array_witness :
    setThumbValue sliderGapValues 2 7 =
      { sliderGapValues with fieldValue := .arr [some 1, some 6, some 7],
                             validityUpdates := 1 } ∧
    ([some 1, some 6, some 7] : List (Option ℚ))[2]? = some (some 7) ∧
    (∀ j w, j ≠ 2 → (([some 1, none, some 6] : List (Option ℚ)).filterMap id)[j]? = some w →
      ([some 1, some 6, some 7] : List (Option ℚ))[j]? = some (some w)) ∧
    (∀ j, j ≠ 2 → (([some 1, none, some 6] : List (Option ℚ)).filterMap id).length ≤ j →
      j < 3 → ([some 1, some 6, some 7] : List (Option ℚ))[j]? = some none) :=
  setThumbValue_multi_writes_array sliderGapValues 2 7 rfl (by decide)
    [some 1, none, some 6] rfl

/-- The invariant of the `onMousedown` reduce after the first `k` registry
indices have been processed: either no processed index qualified and the
candidate is still the initial one, or the candidate is the
earliest-found, strictly-closest qualifying processed index. -/
def GoodCand (s : SliderState) (target : ℚ) (k : ℕ) (c : Candidate) : Prop :=
  (c = { idx := 0, diff := none } ∧ ∀ j < k, ¬ qualifies s target j) ∨
  (∃ d, c.diff = some d ∧ c.idx < k ∧ qualifies s target c.idx ∧
    d = thumbDist s target c.idx ∧
    (∀ j < k, qualifies s target j → d ≤ thumbDist s target j) ∧
    (∀ j < k, qualifies s target j → j < c.idx → d < thumbDist s target j))

theorem goodCand_extend (s : SliderState) (target : ℚ) (k : ℕ) (c : Candidate)
    (hnq : ¬ qualifies s target k) (hc : GoodCand s target k c) :
    GoodCand s target (k + 1) c := by
  rcases hc with ⟨hceq, hnone⟩ | ⟨d, hd, hidx, hq, hdd, hle, hstrict⟩
  · refine Or.inl ⟨hceq, ?_⟩
    intro j hj hqj
    rcases Nat.lt_succ_iff_lt_or_eq.mp hj with hj | rfl
    · exact hnone j hj hqj
    · exact hnq hqj
  · refine Or.inr ⟨d, hd, by omega, hq, hdd, ?_, ?_⟩
    · intro j hj hqj
      rcases Nat.lt_succ_iff_lt_or_eq.mp hj with hj | rfl
      · exact hle j hj hqj
      · exact absurd hqj hnq
    · intro j hj hqj hjc
      rcases Nat.lt_succ_iff_lt_or_eq.mp hj with hj | rfl
      · exact hstrict j hj hqj hjc
      · exact absurd hqj hnq

theorem goodCand_step (s : SliderState) (target : ℚ) (k : ℕ) (c : Candidate)
    (hk : k < s.thumbs.length) (hc : GoodCand s target k c) :
    GoodCand s target (k + 1) (mousedownStepIdx s target c k) := by
  unfold mousedownStepIdx
  by_cases hr : target < (getThumbRangeIdx s k).min ∨ target > (getThumbRangeIdx s k).max
  · rw [if_pos hr]
    refine goodCand_extend s target k c ?_ hc
    intro hq
    rcases hr with hr | hr
    · exact absurd hq.2.1 (not_le.mpr hr)
    · exact absurd hq.2.2.1 (not_le.mpr hr)
  · rw [if_neg hr]
    push_neg at hr
    obtain ⟨hmin, hmax⟩ := hr
    cases hgv : getThumbValue s.fieldValue (k : ℤ) with
    | none =>
      refine goodCand_extend s target k c ?_ hc
      intro hq
      have hs := hq.2.2.2
      rw [hgv] at hs
      simp at hs
    | some v =>
      have hq : qualifies s target k := ⟨hk, hmin, hmax, by rw [hgv]; rfl⟩
      have hdk : thumbDist s target k = |v - target| := by
        unfold thumbDist
        rw [hgv, Option.getD_some]
      show GoodCand s target (k + 1)
        (if ltInf |v - target| c.diff = true then { idx := k, diff := some |v - target| }
         else c)
      by_cases hlt : ltInf |v - target| c.diff = true
      · rw [if_pos hlt]
        rcases hc with ⟨hceq, hnone⟩ | ⟨d, hd, hidx, hqc, hdd, hle, hstrict⟩
        · refine Or.inr ⟨|v - target|, rfl, Nat.lt_succ_self k, hq, hdk.symm, ?_, ?_⟩
          · intro j hj hqj
            rcases Nat.lt_succ_iff_lt_or_eq.mp hj with hj | rfl
            · exact absurd hqj (hnone j hj)
            · rw [hdk]
          · intro j hj hqj hjk
            rcases Nat.lt_succ_iff_lt_or_eq.mp hj with hj | rfl
            · exact absurd hqj (hnone j hj)
            · exact absurd hjk (lt_irrefl j)
        · rw [hd] at hlt
          have hvd : |v - target| < d := by simpa [ltInf] using hlt
          refine Or.inr ⟨|v - target|, rfl, Nat.lt_succ_self k, hq, hdk.symm, ?_, ?_⟩
          · intro j hj hqj
            rcases Nat.lt_succ_iff_lt_or_eq.mp hj with hj | rfl
            · exact le_trans (le_of_lt hvd) (hle j hj hqj)
            · rw [hdk]
          · intro j hj hqj hjk
            rcases Nat.lt_succ_iff_lt_or_eq.mp hj with hj | rfl
            · exact lt_of_lt_of_le hvd (hle j hj hqj)
            · exact absurd hjk (lt_irrefl j)
      · rw [if_neg hlt]
        rcases hc with ⟨hceq, hnone⟩ | ⟨d, hd, hidx, hqc, hdd, hle, hstrict⟩
        · rw [hceq] at hlt
          simp [ltInf] at hlt
        · rw [hd] at hlt
          have hdv : d ≤ |v - target| := by
            by_contra hcon
            exact hlt (by simpa [ltInf] using not_le.mp hcon)
          refine Or.inr ⟨d, hd, by omega, hqc, hdd, ?_, ?_⟩
          · intro j hj hqj
            rcases Nat.lt_succ_iff_lt_or_eq.mp hj with hj | rfl
            · exact hle j hj hqj
            · rw [hdk]
              exact hdv
          · intro j hj hqj hjc
            rcases Nat.lt_succ_iff_lt_or_eq.mp hj with hj | rfl
            · exact hstrict j hj hqj hjc
            · omega

theorem goodCand_foldl (s : SliderState) (target : ℚ) :
    ∀ (n k : ℕ) (c : Candidate), k + n ≤ s.thumbs.length → GoodCand s target k c →
      GoodCand s target (k + n)
        ((List.range' k n).foldl (mousedownStepIdx s target) c) := by
  intro n
  induction n with
  | zero =>
    intro k c h hc
    simpa using hc
  | succ n ih =>
    intro k c h hc
    rw [List.range'_succ]
    simp only [List.foldl_cons]
    have hstep := goodCand_step s target k c (by omega) hc
    have hres := ih (k + 1) (mousedownStepIdx s target c k) (by omega) hstep
    have harr : k + (n + 1) = (k + 1) + n := by omega
    rw [harr]
    exact hres

theorem foldl_pairs_fst (f : Candidate → ℕ × String → Candidate)
    (g : Candidate → ℕ → Candidate) :
    ∀ (l : List (ℕ × String)) (c : Candidate), (∀ p ∈ l, ∀ x, f x p = g x p.1) →
      l.foldl f c = (l.map Prod.fst).foldl g c := by
  intro l
  induction l with
  | nil =>
    intro c h
    rfl
  | cons p rest ih =>
    intro c h
    simp only [List.map_cons, List.foldl_cons]
    rw [h p (by simp)]
    exact ih _ fun q hq x => h q (by simp [hq]) x

theorem mousedownStep_eq_idx (s : SliderState) (target : ℚ) (hnd : s.thumbs.Nodup)
    (p : ℕ × String) (hp : p ∈ s.thumbs.enum) (c : Candidate) :
    mousedownStep s target c p = mousedownStepIdx s target c p.1 := by
  have hget : s.thumbs[p.1]? = some p.2 := List.mem_enum_iff_getElem?.mp hp
  have hidx : jsIndexOf s.thumbs p.2 = p.1 := jsIndexOf_of_getElem? _ _ _ hnd hget
  unfold mousedownStep mousedownStepIdx getThumbRange
  rw [hidx]

theorem pickClosest_eq_range_foldl (s : SliderState) (target : ℚ)
    (hnd : s.thumbs.Nodup) :
    pickClosest s target =
      (List.range s.thumbs.length).foldl (mousedownStepIdx s target)
        { idx := 0, diff := none } := by
  unfold pickClosest
  rw [foldl_pairs_fst (mousedownStep s target) (mousedownStepIdx s target) _ _
    fun p hp x => mousedownStep_eq_idx s target hnd p hp x]
  rw [List.enum_map_fst]

/-- C1: on a track pointer-down of a mutable, measured slider, whenever
at least one registered thumb qualifies (its resolved range contains the
mapped target value and its current value is set), the handler selects a
qualifying thumb whose current value is at minimal absolute distance
from the target, beats every earlier qualifying thumb strictly (so
distance ties keep the earliest-registered index), commits the target to
that thumb and marks the field touched. -/
theorem trackClick_commits_closest_thumb (s : SliderState) (e : Coordinate)
    (hnd : s.thumbs.Nodup) (ht : s.trackRect.isSome = true) (hm : isMutable s = true)
    (hq : ∃ i, qualifies s (getValueForPagePosition s e) i) :
    qualifies s (getValueForPagePosition s e)
      (pickClosest s (getValueForPagePosition s e)).idx ∧
    (∀ j, qualifies s (getValueForPagePosition s e) j →
      thumbDist s (getValueForPagePosition s e)
          (pickClosest s (getValueForPagePosition s e)).idx
        ≤ thumbDist s (getValueForPagePosition s e) j) ∧
    (∀ j, qualifies s (getValueForPagePosition s e) j →
      j < (pickClosest s (getValueForPagePosition s e)).idx →
      thumbDist s (getValueForPagePosition s e)
          (pickClosest s (getValueForPagePosition s e)).idx
        < thumbDist s (getValueForPagePosition s e) j) ∧
    onMousedown s e =
      { setThumbValue s (pickClosest s (getValueForPagePosition s e)).idx
          (getValueForPagePosition s e) with touched := true } := by
  have hinit : GoodCand s (getValueForPagePosition s e) 0 { idx := 0, diff := none } :=
    Or.inl ⟨rfl, fun j hj _ => absurd hj (by omega)⟩
  have hfold := goodCand_foldl s (getValueForPagePosition s e) s.thumbs.length 0
    { idx := 0, diff := none } (by omega) hinit
  have hpc := pickClosest_eq_range_foldl s (getValueForPagePosition s e) hnd
  rw [List.range_eq_range'] at hpc
  rw [← hpc] at hfold
  simp only [Nat.zero_add] at hfold
  obtain ⟨i, hqi⟩ := hq
  rcases hfold with ⟨hceq, hnone⟩ | ⟨d, hd, hidx, hqc, hdd, hle, hstrict⟩
  · exact absurd hqi (hnone i hqi.1)
  · refine ⟨hqc, ?_, ?_, ?_⟩
    · intro j hqj
      have h1 := hle j hqj.1 hqj
      rwa [hdd] at h1
    · intro j hqj hjlt
      have h1 := hstrict j hqj.1 hqj hjlt
      rwa [hdd] at h1
    · unfold onMousedown
      rw [ht, hm]
      rfl

/-- C4: on a track pointer-down of a mutable, measured slider with at
least one registered thumb, when no registered thumb qualifies (the
target falls outside every resolved range, or every current value is
unset), the event is still not discarded: the handler commits the target
value to the first-registered thumb (index 0) and marks the field
touched. -/
theorem trackClick_no_candidate_defaults_first (s : SliderState) (e : Coordinate)
    (hnd : s.thumbs.Nodup) (ht : s.trackRect.isSome = true) (hm : isMutable s = true)
    (hlen : 0 < s.thumbs.length)
    (hnone : ∀ i, ¬ qualifies s (getValueForPagePosition s e) i) :
    onMousedown s e =
      { setThumbValue s 0 (getValueForPagePosition s e) with touched := true } ∧
    (onMousedown s e).touched = true := by
  have hinit : GoodCand s (getValueForPagePosition s e) 0 { idx := 0, diff := none } :=
    Or.inl ⟨rfl, fun j hj _ => absurd hj (by omega)⟩
  have hfold := goodCand_foldl s (getValueForPagePosition s e) s.thumbs.length 0
    { idx := 0, diff := none } (by omega) hinit
  have hpc := pickClosest_eq_range_foldl s (getValueForPagePosition s e) hnd
  rw [List.range_eq_range'] at hpc
  rw [← hpc] at hfold
  rcases hfold with ⟨hceq, -⟩ | ⟨d, hd, hidx, hqc, -, -, -⟩
  · have hcommit0 : onMousedown s e =
        { setThumbValue s (pickClosest s (getValueForPagePosition s e)).idx
            (getValueForPagePosition s e) with touched := true } := by
      unfold onMousedown
      rw [ht, hm]
      rfl
    have hcommit : onMousedown s e =
        { setThumbValue s 0 (getValueForPagePosition s e) with touched := true } := by
      rw [hcommit0, hceq]
    exact ⟨hcommit, by rw [hcommit]⟩
  · exact absurd hqc (hnone _)

/-- A two-thumb measured slider whose field value is entirely unset. -/
def sliderUnsetValues : SliderState :=
  { props := { orientation := none, dir := none, min := some 0, max := some 10,
               step := some 1, disabled := none, readonly := none }
    trackRect := some { left := 0, top := 0, width := 10, height := 1 }
    thumbs := ["a", "b"]
    fieldValue := .undef
    touched := false
    validityUpdates := 0 }

theorem trackClick_commits_closest_thumb_witness :
    qualifies sliderTwoThumbs 3 0 ∧
    (pickClosest sliderTwoThumbs 3).idx = 0 ∧
    onMousedown sliderTwoThumbs { x := 3, y := 0 } =
      { sliderTwoThumbs with fieldValue := .arr [some 3, some 8], touched := true,
                             validityUpdates := 1 } := by
  have htv : getValueForPagePosition sliderTwoThumbs { x := 3, y := 0 } = 3 := by
    simp [getValueForPagePosition, sliderTwoThumbs, jsOr, toNearestMultipleOf,
      roundHalfAwayFromZero]
    norm_num
  have hq0 : qualifies sliderTwoThumbs 3 0 := by
    refine ⟨by norm_num [sliderTwoThumbs], ?_, ?_, ?_⟩ <;>
      norm_num [getThumbRangeIdx, getSliderRange, getThumbValue, jsOr, sliderTwoThumbs,
        List.getD_eq_getElem?_getD]
  have hpick : pickClosest sliderTwoThumbs 3 = { idx := 0, diff := some 1 } := by
    simp [pickClosest, sliderTwoThumbs, List.enum, List.enumFrom, mousedownStep,
      getThumbRange, getThumbRangeIdx, getSliderRange, getThumbValue, jsIndexOf, ltInf,
      jsOr]
    norm_num
  have main := trackClick_commits_closest_thumb sliderTwoThumbs { x := 3, y := 0 }
    (by decide) rfl rfl ⟨0, by rw [htv]; exact hq0⟩
  have hcommit := main.2.2.2
  rw [htv, hpick] at hcommit
  have hset : setThumbValue sliderTwoThumbs 0 3 =
      { sliderTwoThumbs with fieldValue := .arr [some 3, some 8], validityUpdates := 1 } := by
    simp [setThumbValue, sliderTwoThumbs, isMutable, isDisabled, isReadonly,
      normalizeArrayable, isNullOrUndefined, jsSetIdx]
  rw [hset] at hcommit
  exact ⟨hq0, by rw [hpick], hcommit⟩

theorem trackClick_no_candidate_defaults_first_witness :
    onMousedown sliderUnsetValues { x := 3, y := 0 } =
      { setThumbValue sliderUnsetValues 0
          (getValueForPagePosition sliderUnsetValues { x := 3, y := 0 })
        with touched := true } ∧
    (onMousedown sliderUnsetValues { x := 3, y := 0 }).touched = true ∧
    (onMousedown sliderUnsetValues { x := 3, y := 0 }).fieldValue = .arr [some 3] := by
  have hnone : ∀ i, ¬ qualifies sliderUnsetValues
      (getValueForPagePosition sliderUnsetValues { x := 3, y := 0 }) i := by
    intro i hq
    have hs := hq.2.2.2
    simp [sliderUnsetValues, getThumbValue] at hs
  have main := trackClick_no_candidate_defaults_first sliderUnsetValues { x := 3, y := 0 }
    (by decide) rfl rfl (by decide) hnone
  refine ⟨main.1, main.2, ?_⟩
  have htv : getValueForPagePosition sliderUnsetValues { x := 3, y := 0 } = 3 := by
    simp [getValueForPagePosition, sliderUnsetValues, jsOr, toNearestMultipleOf,
      roundHalfAwayFromZero]
    norm_num
  rw [main.1, htv]
  simp [setThumbValue, sliderUnsetValues, isMutable, isDisabled, isReadonly,
    normalizeArrayable, isNullOrUndefined, jsSetIdx]

theorem roundHalfAwayFromZero_mono {a b : ℚ} (h : a ≤ b) :
    roundHalfAwayFromZero a ≤ roundHalfAwayFromZero b := by
  unfold roundHalfAwayFromZero
  by_cases ha : 0 ≤ a
  · rw [if_pos ha, if_pos (le_trans ha h)]
    exact Int.floor_mono (by linarith)
  · push_neg at ha
    rw [if_neg (not_le.mpr ha)]
    by_cases hb : 0 ≤ b
    · rw [if_pos hb]
      have h1 : (0 : ℤ) ≤ ⌊b + 1 / 2⌋ := Int.floor_nonneg.mpr (by linarith)
      have h2 : (0 : ℤ) ≤ ⌊-a + 1 / 2⌋ := Int.floor_nonneg.mpr (by linarith)
      omega
    · rw [if_neg hb]
      have h1 : ⌊-b + 1 / 2⌋ ≤ ⌊-a + 1 / 2⌋ := Int.floor_mono (by linarith)
      omega

theorem toNearestMultipleOf_mono {st : ℚ} (hst : st ≠ 0) {v1 v2 : ℚ} (h : v1 ≤ v2) :
    toNearestMultipleOf v1 st ≤ toNearestMultipleOf v2 st := by
  unfold toNearestMultipleOf
  rcases lt_or_gt_of_ne hst with hneg | hpos
  · have hdiv : v2 / st ≤ v1 / st := (div_le_div_right_of_neg hneg).mpr h
    have hr : ((roundHalfAwayFromZero (v2 / st) : ℚ)) ≤
        ((roundHalfAwayFromZero (v1 / st) : ℚ)) := by
      exact_mod_cast roundHalfAwayFromZero_mono hdiv
    exact mul_le_mul_of_nonpos_right hr (le_of_lt hneg)
  · have hdiv : v1 / st ≤ v2 / st := (div_le_div_iff_of_pos_right hpos).mpr h
    have hr : ((roundHalfAwayFromZero (v1 / st) : ℚ)) ≤
        ((roundHalfAwayFromZero (v2 / st) : ℚ)) := by
      exact_mod_cast roundHalfAwayFromZero_mono hdiv
    exact mul_le_mul_of_nonneg_right hr (le_of_lt hpos)

theorem jsOr_default_one_ne_zero (o : Option ℚ) : jsOr o 1 ≠ 0 := by
  cases o with
  | none => norm_num [jsOr]
  | some v =>
    show (if v = 0 then (1 : ℚ) else v) ≠ 0
    by_cases hv : v = 0
    · rw [if_pos hv]
      norm_num
    · rw [if_neg hv]
      exact hv

/-- A measured horizontal slider configured with inverted bounds
(`min = 50 > max = 10`). -/
def sliderInvertedBounds : SliderState :=
  { props := { orientation := none, dir := none, min := some 50, max := some 10,
               step := some 1, disabled := none, readonly := none }
    trackRect := some { left := 0, top := 0, width := 10, height := 1 }
    thumbs := ["a"]
    fieldValue := .scalar 50
    touched := false
    validityUpdates := 0 }

/-- C6 counterexample: a measured, positive-extent, horizontal slider
with no `rtl` direction but inverted configured bounds (`min = 50`,
`max = 10`): moving from `x = 0` to `x = 10` takes the mapped value from
`50` down to `10`, so `positionToValue` is not monotonically increasing
in `x` as the claim states for every such slider. -/
theorem positionToValue_not_increasing_when_bounds_inverted :
    sliderInvertedBounds.trackRect
        = some { left := 0, top := 0, width := 10, height := 1 } ∧
    sliderInvertedBounds.props.dir ≠ some Direction.rtl ∧
    sliderInvertedBounds.props.orientation.getD Orientation.horizontal
        = Orientation.horizontal ∧
    (0 : ℚ) ≤ 10 ∧
    ¬ (getValueForPagePosition sliderInvertedBounds { x := 0, y := 0 } ≤
        getValueForPagePosition sliderInvertedBounds { x := 10, y := 0 }) := by
  have h0 : getValueForPagePosition sliderInvertedBounds { x := 0, y := 0 } = 50 := by
    simp [getValueForPagePosition, sliderInvertedBounds, jsOr, toNearestMultipleOf,
      roundHalfAwayFromZero]
    norm_num
  have h10 : getValueForPagePosition sliderInvertedBounds { x := 10, y := 0 } = 10 := by
    simp [getValueForPagePosition, sliderInvertedBounds, jsOr, toNearestMultipleOf,
      roundHalfAwayFromZero]
    norm_num
  refine ⟨rfl, by simp [sliderInvertedBounds], rfl, by norm_num, ?_⟩
  rw [h0, h10]
  norm_num

/-- C6 (amended): provided the effective bounds are not inverted
(`min ≤ max`), `getValueForPagePosition` on a measured track of positive
extent is monotonically non-decreasing in `x` for a horizontal slider
whose direction is not `rtl`, and monotonically non-increasing in the
primary-axis coordinate for a horizontal `rtl` slider and for a vertical
slider; the `rtl` and vertical flips form a single combined condition,
so a vertical slider is flipped exactly once whatever its direction
(no double flip for vertical + `rtl`). -/
theorem positionToValue_monotone (s : SliderState) (rect : Rect)
    (ht : s.trackRect = some rect)
    (hb : jsOr s.props.min 0 ≤ jsOr s.props.max 100) :
    (s.props.orientation.getD .horizontal = .horizontal → 0 < rect.width →
      (s.props.dir ≠ some .rtl →
        ∀ c1 c2 : Coordinate, c1.x ≤ c2.x →
          getValueForPagePosition s c1 ≤ getValueForPagePosition s c2) ∧
      (s.props.dir = some .rtl →
        ∀ c1 c2 : Coordinate, c1.x ≤ c2.x →
          getValueForPagePosition s c2 ≤ getValueForPagePosition s c1)) ∧
    (s.props.orientation.getD .horizontal = .vertical → 0 < rect.height →
      ∀ c1 c2 : Coordinate, c1.y ≤ c2.y →
        getValueForPagePosition s c2 ≤ getValueForPagePosition s c1) := by
  have hMm : (0 : ℚ) ≤ jsOr s.props.max 100 - jsOr s.props.min 0 := by linarith
  constructor
  · intro hor hw
    constructor
    · intro hdir c1 c2 hx
      unfold getValueForPagePosition
      rw [ht]
      simp only [hor, hdir]
      simp
      apply toNearestMultipleOf_mono (jsOr_default_one_ne_zero _)
      have hperc : (c1.x - rect.left) / rect.width ≤ (c2.x - rect.left) / rect.width :=
        (div_le_div_iff_of_pos_right hw).mpr (by linarith)
      nlinarith [mul_le_mul_of_nonneg_right hperc hMm]
    · intro hdir c1 c2 hx
      unfold getValueForPagePosition
      rw [ht]
      simp only [hor, hdir]
      simp
      apply toNearestMultipleOf_mono (jsOr_default_one_ne_zero _)
      have hperc : (c1.x - rect.left) / rect.width ≤ (c2.x - rect.left) / rect.width :=
        (div_le_div_iff_of_pos_right hw).mpr (by linarith)
      nlinarith [mul_le_mul_of_nonneg_right hperc hMm]
  · intro hvert hh c1 c2 hy
    unfold getValueForPagePosition
    rw [ht]
    simp only [hvert]
    simp
    apply toNearestMultipleOf_mono (jsOr_default_one_ne_zero _)
    have hperc : (c1.y - rect.top) / rect.height ≤ (c2.y - rect.top) / rect.height :=
      (div_le_div_iff_of_pos_right hh).mpr (by linarith)
    nlinarith [mul_le_mul_of_nonneg_right hperc hMm]

theorem positionToValue_monotone_witness :
    (sliderTwoThumbs.props.orientation.getD .horizontal = .horizontal →
      0 < (10 : ℚ) →
      (sliderTwoThumbs.props.dir ≠ some .rtl →
        ∀ c1 c2 : Coordinate, c1.x ≤ c2.x →
          getValueForPagePosition sliderTwoThumbs c1
            ≤ getValueForPagePosition sliderTwoThumbs c2) ∧
      (sliderTwoThumbs.props.dir = some .rtl →
        ∀ c1 c2 : Coordinate, c1.x ≤ c2.x →
          getValueForPagePosition sliderTwoThumbs c2
            ≤ getValueForPagePosition sliderTwoThumbs c1)) ∧
    (sliderTwoThumbs.props.orientation.getD .horizontal = .vertical →
      0 < (1 : ℚ) →
      ∀ c1 c2 : Coordinate, c1.y ≤ c2.y →
        getValueForPagePosition sliderTwoThumbs c2
          ≤ getValueForPagePosition sliderTwoThumbs c1) :=
  positionToValue_monotone sliderTwoThumbs { left := 0, top := 0, width := 10, height := 1 }
    rfl (by norm_num [jsOr, sliderTwoThumbs])

end Formwerk
